import Mathlib

/-!
Shallow embedding of `silence.py` (mythcommflag-silence): a MythTV
commercial-flagging script.  The embedding covers the two core pieces the
claims are about:

* the `PRESET` class — resolution of the six silence-detection parameters
  from an override string (`getFromArg`) or a preset file (`getFromFile`),
  with per-field validation (`_validate`, here `validate`);
* the `main` read loop — parsing `tag@payload` lines from the final
  pipeline stage, appending break marks, and notifying the backend.

External collaborators (the MythTV bindings, the `re` module's regular
expression engine, Python's builtin `float`) are modelled explicitly; each
such model carries a doc comment saying what it stands for.  Machine
reals are modelled as exact scaled decimals (`num / 10 ^ exp`): the
script does no arithmetic on its parameter values — it only parses and
stringifies them — and on the finite decimal strings in play Python's
parse / compare / `str` round trip agrees with the exact-decimal one.
-/

/-- Python's whitespace set for `str.strip()` and `float()` (ASCII
` \t\n\r\v\f`). -/
def isPySpace (c : Char) : Bool :=
  c = ' ' || c = '\t' || c = '\n' || c = '\r' || c = '\x0b' || c = '\x0c'

/-- Python `str.strip()` with no argument: remove leading and trailing
whitespace. -/
def pyStrip (s : String) : String :=
  String.mk (((s.data.dropWhile isPySpace).reverse.dropWhile isPySpace).reverse)

/-- Split a character list at every `','` (Python `str.split(',')`:
`''.split(',') == ['']`, separators are not grouped). -/
def splitCharsComma : List Char → List (List Char)
  | [] => [[]]
  | c :: rest =>
    let r := splitCharsComma rest
    if c = ',' then [] :: r
    else (c :: r.headD []) :: r.tail

/-- Python `line.split(',')`. -/
def splitOnComma (s : String) : List String :=
  (splitCharsComma s.data).map String.mk

/-- Python `line.startswith('#')`: the first character is `'#'`. -/
def startsWithHash (s : String) : Bool :=
  match s.data with
  | c :: _ => c = '#'
  | [] => false

/-- A Python number as it occurs in `PRESET.argval` / `argdict`: either an
`int` (the defaults `-75`, `6`, `120`, `120`) or a `float` (the defaults
`0.16`, `0.48` and every value produced by `float(...)` in `_validate`).
A float is kept as an exact scaled decimal `pfloat num exp`, standing for
the value `num / 10 ^ exp` — exact for every value the script can parse
(the doubles Python builds from these short decimal strings round-trip
through the same decimal forms).  The `int`/`float` distinction matters
because Python's `str()` renders `-75` and `-75.0` differently. -/
inductive PyNum where
  | pint : Int → PyNum
  | pfloat : Int → Nat → PyNum
deriving DecidableEq

/-- The scaled-decimal view `(num, exp)` of a `PyNum`, its value being
`num / 10 ^ exp`. -/
def PyNum.scaled : PyNum → Int × Nat
  | .pint n => (n, 0)
  | .pfloat a k => (a, k)

/-- Python `==` between the numbers in play: exact numeric equality of
the scaled decimals (by cross-multiplication). -/
def PyNum.numEq (x y : PyNum) : Bool :=
  x.scaled.1 * (10 : Int) ^ y.scaled.2 = y.scaled.1 * (10 : Int) ^ x.scaled.2

/-- Value of a list of decimal digit characters, most significant first. -/
def digitsToNat (ds : List Char) : Nat :=
  ds.foldl (fun n c => 10 * n + (c.toNat - 48)) 0

/-- Drop trailing `'0'` characters. -/
def stripTrailingZeros (l : List Char) : List Char :=
  (l.reverse.dropWhile (fun c => c = '0')).reverse

/-- Modelled from the spec: Python's `str()` on a finite `float` holding
the value `a / 10 ^ k`.  For the magnitudes the script handles Python
prints the shortest round-tripping decimal, which is the plain positional
form with at least one digit on each side of the point (`-75.0`, `0.16`,
`0.5` for the value parsed from `0.50`); scientific notation (used by
Python outside `[1e-4, 1e16)`) and the negative-zero corner are outside
the modelled fragment, which only concrete short-decimal scenarios rely
on. -/
def pyFloatStr (a : Int) (k : Nat) : String :=
  let s := toString a.natAbs
  let s := if s.length ≤ k then
      String.mk (List.replicate (k + 1 - s.length) '0') ++ s else s
  let ip := String.mk (s.data.take (s.length - k))
  let fp := stripTrailingZeros (s.data.drop (s.length - k))
  let fps := if fp = [] then "0" else String.mk fp
  (if a < 0 then "-" else "") ++ ip ++ "." ++ fps

/-- Python's `str()` on a `PyNum`: `int`s print without a decimal point,
`float`s with one. -/
def PyNum.pyStr : PyNum → String
  | .pint n => toString n
  | .pfloat a k => pyFloatStr a k

/-- Modelled from the spec: Python's builtin `float(string)`, restricted
to the finite decimal grammar (surrounding whitespace, optional sign,
digits with optional fraction and optional exponent).  The special forms
`inf`/`nan` and digit-group underscores that CPython also accepts are
outside this fragment; only concrete finite-decimal scenarios rely on
this function, the universally-quantified theorems are parametric in the
parse function. -/
def pyParseFloat (s : String) : Option PyNum :=
  let cs0 := (pyStrip s).data
  let sgn : Int := match cs0 with
    | '-' :: _ => -1
    | _ => 1
  let cs := match cs0 with
    | '+' :: r => r
    | '-' :: r => r
    | r => r
  let ip := cs.takeWhile Char.isDigit
  let r1 := cs.dropWhile Char.isDigit
  let mant : Option (Nat × Nat) × List Char := match r1 with
    | '.' :: r =>
      let fp := r.takeWhile Char.isDigit
      let rr := r.dropWhile Char.isDigit
      if ip = [] ∧ fp = [] then (none, rr)
      else (some (digitsToNat ip * 10 ^ fp.length + digitsToNat fp, fp.length), rr)
    | _ => (if ip = [] then none else some (digitsToNat ip, 0), r1)
  match mant with
  | (none, _) => none
  | (some (m, k), []) => some (.pfloat (sgn * m) k)
  | (some (m, k), e :: r) =>
    if e = 'e' ∨ e = 'E' then
      let eneg : Bool := match r with
        | '-' :: _ => true
        | _ => false
      let r' := match r with
        | '+' :: rr => rr
        | '-' :: rr => rr
        | rr => rr
      let ed := r'.takeWhile Char.isDigit
      let rest := r'.dropWhile Char.isDigit
      if ed = [] ∨ rest ≠ [] then none
      else if eneg then some (.pfloat (sgn * m) (k + digitsToNat ed))
      else some (.pfloat (sgn * m * 10 ^ digitsToNat ed) k)
    else none

/-- Log severities used by the script (`MythTV.MythLog` levels). -/
inductive LogLevel where
  | INFO
  | DEBUG
  | ERR
  | WARNING
deriving DecidableEq

/-- One message given to the logging collaborator. -/
structure LogEntry where
  msg : String
  lvl : LogLevel
deriving DecidableEq

/-- Drop trailing newline characters (Python `msg.rstrip('\n')`). -/
def rstripNL (s : String) : String :=
  String.mk ((s.data.reverse.dropWhile (fun c => c = '\n')).reverse)

/-- `MYLOG.log`: prepends `mythcommflag: ` and strips trailing newlines
before handing the message to the MythTV logging collaborator
(`silence.py` lines 30–34). -/
def mkLog (m : String) (l : LogLevel) : LogEntry :=
  ⟨"mythcommflag: " ++ rstripNL m, l⟩

namespace PRESET

/-- `PRESET.argname` (line 41): canonical parameter order. -/
def argname : List String :=
  ["thresh", "minquiet", "mindetect", "minbreak", "maxsep", "pad"]

/-- `PRESET.argval` (line 42): built-in defaults.  `-75`, `6`, `120`,
`120` are Python `int` literals, `0.16` and `0.48` are `float` literals. -/
def argval : List PyNum :=
  [.pint (-75), .pfloat 16 2, .pint 6, .pint 120, .pint 120, .pfloat 48 2]

/-- An ordered string-keyed mapping, modelling the `OrderedDict`. -/
abbrev ArgDict := List (String × PyNum)

/-- `PRESET.argdict` (line 44): `OrderedDict(zip(argname, argval))` —
the built-in defaults in canonical order. -/
def argdict : ArgDict := argname.zip argval

/-- `PRESET._validate(k, v)` (lines 46–55), parametric in the float
parser `pf`.  Returns the parsed value (`none` when the field is empty or
fails numeric parsing — the source's `None`) together with the log
messages emitted (a `ValueError` logs an error naming the parameter and
the raw value; an empty field logs nothing). -/
def validate (pf : String → Option PyNum) (k v : String) :
    (String × Option PyNum) × List LogEntry :=
  if v = "" then ((k, none), [])
  else match pf v with
    | some x => ((k, some x), [])
    | none =>
      ((k, none),
       [mkLog ("Preset " ++ k ++ " (" ++ v ++ ") is invalid - will use default") .ERR])

/-- `map(self._validate, self.argname, vals)` with Python-3 `map`
semantics (stops at the shorter list).  Python 2's `map` instead pads the
missing values with `None`, which `_validate` maps to `(k, None)` — those
pairs are filtered out before the dict update and produce no log, so the
two semantics give identical observable results here. -/
def validateAll (pf : String → Option PyNum) :
    List String → List String → List (String × Option PyNum) × List LogEntry
  | [], _ => ([], [])
  | _ :: _, [] => ([], [])
  | k :: ks, v :: vs =>
    let r := validate pf k v
    let rest := validateAll pf ks vs
    (r.1 :: rest.1, r.2 ++ rest.2)

/-- Single-key assignment `d[k] = v` of a Python (ordered) dict: replace
in place if the key exists, else append. -/
def setKey (d : ArgDict) (k : String) (v : PyNum) : ArgDict :=
  if d.any (fun kv => kv.1 = k) then
    d.map (fun kv => if kv.1 = k then (k, v) else kv)
  else d ++ [(k, v)]

/-- `self.argdict.update(pairs)`: assign each pair in order. -/
def updDict (d : ArgDict) (upds : List (String × PyNum)) : ArgDict :=
  upds.foldl (fun d p => setKey d p.1 p.2) d

/-- The generator filter `(v for v in validargs if v[1] is not None)`
(line 69 / line 89): keep a validated pair only when its value is
present. -/
def validPair : String × Option PyNum → Option (String × PyNum)
  | (k, some x) => some (k, x)
  | (_, none) => none

/-- The shared body of both resolution paths (`getFromArg` line 67–69 and
`getFromFile` lines 85–89): validate the sliced field list positionally
against `argname`, drop the missing/invalid pairs, and update the dict
with the rest.  Also returns the validation log messages in order. -/
def applyValid (pf : String → Option PyNum) (d : ArgDict) (vals : List String) :
    ArgDict × List LogEntry :=
  let va := validateAll pf argname vals
  (updDict d (va.1.filterMap validPair), va.2)

/-- `PRESET.getFromArg` (lines 61–69), parametric in the float parser.
Logs a debug line, ignores an empty override string, otherwise splits on
`,`, strips each field, truncates to the first six (`vals[0:len(self.argname)]`)
and applies them positionally. -/
def getFromArg (pf : String → Option PyNum) (d : ArgDict) (line : String) :
    ArgDict × List LogEntry :=
  let dbg := mkLog ("Parsing presets from \"" ++ line ++ "\"") .DEBUG
  if line = "" then (d, [dbg])
  else
    let vals := (splitOnComma line).map pyStrip
    let r := applyValid pf d (vals.take argname.length)
    (r.1, dbg :: r.2)

/-- The stripped-and-split fields of a preset-file line (line 79). -/
def scannedFields (l : String) : List String :=
  (splitOnComma (pyStrip l)).map pyStrip

/-- `'Using preset "' + line.strip() + '"'` (line 83), at default level. -/
def usingLog (line : String) : LogEntry :=
  mkLog ("Using preset \"" ++ line ++ "\"") .INFO

/-- The for-else log (line 92): no matching preset line was found. -/
def noPresetLog (title callsign : String) : LogEntry :=
  mkLog ("No preset found for \"" ++ title ++ "\" or \"" ++ callsign ++ "\"") .INFO

/-- `'Using preset file "' + filename + '"'` (line 73). -/
def fileDbgLog (filename : String) : LogEntry :=
  mkLog ("Using preset file \"" ++ filename ++ "\"") .DEBUG

/-- IOError handler log (line 94). -/
def notFoundLog (filename : String) : LogEntry :=
  mkLog ("Presets file \"" ++ filename ++ "\" not found") .ERR

/-- The preset-file scanning loop of `getFromFile` (lines 76–92),
parametric in the float parser `pf` and in the regular-expression engine
`mc`.  `mc pat` models `re.compile(pat, re.IGNORECASE)`: `none` when the
pattern is malformed (`re.error` — uncaught by the source, modelled as
`Except.error`), otherwise `some m` where `m s` is the truthiness of
`pattern.match(s)`.  Strip each raw line; skip it when empty or starting
with `#`; otherwise split on `,`, compile the first field, and on a match
against title or callsign log the line, apply fields `vals[1:1+6]`
positionally and stop (`break`).  If no line matched, the for-else arm
logs that no preset was found. -/
def scanLines (pf : String → Option PyNum) (mc : String → Option (String → Bool))
    (title callsign : String) (d : ArgDict) :
    List String → Except Unit (ArgDict × List LogEntry)
  | [] => .ok (d, [noPresetLog title callsign])
  | raw :: rest =>
    let line := pyStrip raw
    if line = "" then scanLines pf mc title callsign d rest
    else if startsWithHash line then scanLines pf mc title callsign d rest
    else
      let vals := (splitOnComma line).map pyStrip
      match mc (vals.headD "") with
      | none => .error ()
      | some m =>
        if m title || m callsign then
          let r := applyValid pf d ((vals.drop 1).take argname.length)
          .ok (r.1, usingLog line :: r.2)
        else scanLines pf mc title callsign d rest

/-- `PRESET.getFromFile` (lines 71–95).  `file` is the line list of the
preset file, or `none` when opening raises `IOError` (the only exception
the source catches: it logs an error and leaves the defaults).  A
malformed pattern on a scanned line propagates (`Except.error`). -/
def getFromFile (pf : String → Option PyNum) (mc : String → Option (String → Bool))
    (filename : String) (d : ArgDict) (file : Option (List String))
    (title callsign : String) : Except Unit (ArgDict × List LogEntry) :=
  let dbg := fileDbgLog filename
  match file with
  | none => .ok (d, [dbg, notFoundLog filename])
  | some ls =>
    match scanLines pf mc title callsign d ls with
    | .error e => .error e
    | .ok r => .ok (r.1, dbg :: r.2)

/-- `PRESET.getValues` (lines 97–99): the parameters as a list of
stringified values in canonical order. -/
def getValues (d : ArgDict) : List String :=
  d.map (fun kv => kv.2.pyStr)

end PRESET

/-- Models `line.split('@', 1)` followed by the 2-tuple unpacking
`flag, info = ...` (line 194): `some (flag, info)` splits at the first
`'@'`; `none` models the `ValueError` raised by unpacking a 1-element
list when the line contains no `'@'`. -/
def splitAt1 (s : String) : Option (String × String) :=
  match s.data.dropWhile (fun ch => ch ≠ '@') with
  | [] => none
  | _ :: post =>
    some (String.mk (s.data.takeWhile (fun ch => ch ≠ '@')), String.mk post)

/-- Auxiliary scanner for `digitRuns`: `cur` is the current run reversed,
`acc` the completed runs. -/
def digitRunsAux : List Char → List Char → List String → List String
  | [], [], acc => acc
  | [], cur, acc => acc ++ [String.mk cur.reverse]
  | c :: rest, cur, acc =>
    if c.isDigit then digitRunsAux rest (c :: cur) acc
    else if cur = [] then digitRunsAux rest [] acc
    else digitRunsAux rest [] (acc ++ [String.mk cur.reverse])

/-- Models `re.findall('\d+', info)` (line 197): the maximal runs of
decimal digits, in order. -/
def digitRuns (s : String) : List String :=
  digitRunsAux s.data [] []

/-- Models Python `int(...)` on a nonempty all-digit string (the only
shape `re.findall('\d+', ...)` can produce). -/
def strToNat (s : String) : Nat :=
  digitsToNat s.data

/-- Modelled from the spec: the message-bus collaborator's fixed numeric
code for a "break start" marker (`rec.markup.MARK_COMM_START` from the
MythTV bindings). -/
def MARK_COMM_START : Nat := 4

/-- Modelled from the spec: the fixed numeric code for a "break end"
marker (`rec.markup.MARK_COMM_END`). -/
def MARK_COMM_END : Nat := 5

/-- The update message built at lines 205–209 from the full current skip
list: `COMMFLAG_UPDATE <progId> <s1>:<STARTCODE>,<e1>:<ENDCODE>,...`,
pairs in skip-list order. -/
def mkMesg (progId : String) (sl : List (Nat × Nat)) : String :=
  "COMMFLAG_UPDATE " ++ progId ++ " " ++
    String.intercalate ","
      ((sl.map (fun p =>
          [toString p.1 ++ ":" ++ toString MARK_COMM_START,
           toString p.2 ++ ":" ++ toString MARK_COMM_END])).flatten)

/-- The backend-failure error message (lines 213–214). -/
def failLogMsg (result mesg : String) : String :=
  "Backend message failed, response = " ++ result ++
    ", message = MESSAGE[]:[]" ++ mesg

/-- Observable state of the `main` read loop (lines 189–221): `markup` is
the recording's appended break marks as (start, end) pairs — modelled
from the spec, the MythTV `rec.markup`/`getskiplist()` collaborator keeps
the appended COMM_START/COMM_END marks as an ordered list of pairs;
`breaks` is the break counter; `logs` the messages handed to the logging
collaborator; `sent` the commands handed to `be.backendCommand`. -/
structure LoopState where
  markup : List (Nat × Nat)
  breaks : Nat
  logs : List LogEntry
  sent : List String
deriving DecidableEq

/-- The state at loop entry: no marks, zero breaks. -/
def initState : LoopState := ⟨[], 0, [], []⟩

/-- The severity-dispatch table `level` (line 190). -/
def levelTags : List (String × LogLevel) :=
  [("info", .INFO), ("debug", .DEBUG), ("err", .ERR)]

/-- The effect of one `cut` line whose payload yielded the digit runs
`n0`, `n1`, ... (lines 198–214): log the payload, append the
`(start, end)` pair to the markup, bump the break counter, send the
serialization of the entire current skip list to the backend, and when
the response is not exactly `OK` log an error — non-fatally, the
resulting state is still a normal state. -/
def cutState (be : String → String) (progId : String) (st : LoopState)
    (info n0 n1 : String) : LoopState :=
  let markup' := st.markup ++ [(strToNat n0, strToNat n1)]
  let mesg := mkMesg progId markup'
  let cmd := "MESSAGE[]:[]" ++ mesg
  let result := be cmd
  let st2 : LoopState :=
    { markup := markup'
      breaks := st.breaks + 1
      logs := st.logs ++ [mkLog info .INFO]
      sent := st.sent ++ [cmd] }
  if result ≠ "OK" then
    { st2 with logs := st2.logs ++ [mkLog (failLogMsg result mesg) .ERR] }
  else st2

/-- The tag dispatch of the read loop body (lines 195–219) after the
`(flag, info)` unpacking succeeded.  A `cut` payload with fewer than two
digit runs raises `IndexError` at `numbers[0]`/`numbers[1]` — modelled as
`none` (the effects already performed before the raise are not tracked;
the exception aborts the whole session).  A recognized severity logs the
payload at its level; any other tag logs the literal tag text at warning
level. -/
def processTag (be : String → String) (progId : String) (st : LoopState)
    (flag info : String) : Option LoopState :=
  if flag = "cut" then
    match digitRuns info with
    | n0 :: n1 :: _ => some (cutState be progId st info n0 n1)
    | _ => none
  else
    match levelTags.lookup flag with
    | some lvl => some { st with logs := st.logs ++ [mkLog info lvl] }
    | none => some { st with logs := st.logs ++ [mkLog flag .WARNING] }

/-- One iteration of the read loop on a (nonempty) line (lines 193–219),
parametric in the backend collaborator `be` (the response string of
`be.backendCommand`).  `none` models an uncaught exception: `ValueError`
from unpacking a line without `'@'`, or the `IndexError` inside
`processTag`. -/
def processLine (be : String → String) (progId : String) (st : LoopState)
    (line : String) : Option LoopState :=
  match splitAt1 line with
  | none => none
  | some (flag, info) => processTag be progId st flag info

/-- The read loop (lines 191–221) over the sequence of nonempty lines the
final pipeline stage produces before end-of-stream (an empty `readline`
result ends the loop; `none` propagates an uncaught exception). -/
def runLoop (be : String → String) (progId : String) (st : LoopState) :
    List String → Option LoopState
  | [] => some st
  | l :: ls =>
    match processLine be progId st l with
    | none => none
    | some st' => runLoop be progId st' ls

/-- A backend collaborator that always answers the success token. -/
def beOK : String → String := fun _ => "OK"

/-- A backend collaborator whose answer is never the success token. -/
def beFail : String → String := fun _ => "bad"

namespace PRESET

/-- The value a parameter with key `k` and prior value `dflt` ends up
with after validating field `v`: unchanged when the field is missing or
invalid, the parsed value otherwise. -/
def valueOf (pf : String → Option PyNum) (k v : String) (dflt : PyNum) : PyNum :=
  match (validate pf k v).1.2 with
  | some x => x
  | none => dflt

/-- Reference form of one positional application pass: walk the dict and
the field list together, keeping each prior value whose field is missing
or invalid. -/
def applyRef (pf : String → Option PyNum) : ArgDict → List String → ArgDict
  | [], _ => []
  | d, [] => d
  | kv :: rest, v :: vs => (kv.1, valueOf pf kv.1 v kv.2) :: applyRef pf rest vs

theorem validate_fst (pf : String → Option PyNum) (k v : String) :
    (validate pf k v).1.1 = k := by
  unfold validate
  split
  · rfl
  · cases pf v <;> rfl

theorem validate_snd_none (pf : String → Option PyNum) (k v : String)
    (h : v = "" ∨ pf v = none) : (validate pf k v).1.2 = none := by
  unfold validate
  rcases h with h | h
  · rw [if_pos h]
  · rw [h]
    split <;> rfl

theorem valueOf_unchanged (pf : String → Option PyNum) (k v : String) (dflt : PyNum)
    (h : v = "" ∨ pf v = none) : valueOf pf k v dflt = dflt := by
  unfold valueOf
  rw [validate_snd_none pf k v h]

theorem validateAll_nil (pf : String → Option PyNum) (vals : List String) :
    validateAll pf [] vals = ([], []) := by
  cases vals <;> rfl

theorem validateAll_cons (pf : String → Option PyNum) (k : String) (ks : List String)
    (v : String) (vs : List String) :
    validateAll pf (k :: ks) (v :: vs)
      = ((validate pf k v).1 :: (validateAll pf ks vs).1,
         (validate pf k v).2 ++ (validateAll pf ks vs).2) := rfl

theorem validateAll_keys (pf : String → Option PyNum) (names vals : List String) :
    ∀ p ∈ (validateAll pf names vals).1, p.1 ∈ names := by
  induction names generalizing vals with
  | nil => intro p hp; rw [validateAll_nil] at hp; cases hp
  | cons k ks ih =>
    cases vals with
    | nil => intro p hp; cases hp
    | cons v vs =>
      intro p hp
      rw [validateAll_cons, List.mem_cons] at hp
      rcases hp with hp | hp
      · rw [hp, validate_fst]; exact List.mem_cons_self _ _
      · exact List.mem_cons_of_mem _ (ih vs p hp)

theorem map_setKey_self (d : ArgDict) (k : String) (x : PyNum) :
    (∀ kv ∈ d, kv.1 ≠ k) →
      d.map (fun kv => if kv.1 = k then (k, x) else kv) = d := by
  induction d with
  | nil => intro _; rfl
  | cons kv rest ih =>
    intro h
    simp only [List.map_cons]
    rw [if_neg (h kv (List.mem_cons_self _ _)),
      ih (fun q hq => h q (List.mem_cons_of_mem _ hq))]

theorem setKey_cons_ne (d : ArgDict) (k k' : String) (v0 x : PyNum) (h : k ≠ k') :
    setKey ((k, v0) :: d) k' x = (k, v0) :: setKey d k' x := by
  cases hc : d.any (fun kv => decide (kv.1 = k')) with
  | true => simp [setKey, List.any_cons, hc, h]
  | false => simp [setKey, List.any_cons, hc, h]

theorem setKey_head (d : ArgDict) (k : String) (v0 x : PyNum)
    (h : ∀ kv ∈ d, kv.1 ≠ k) :
    setKey ((k, v0) :: d) k x = (k, x) :: d := by
  simp [setKey, List.any_cons, map_setKey_self d k x h]

theorem updDict_cons_notin (d : ArgDict) (k : String) (v0 : PyNum)
    (upds : List (String × PyNum)) (h : ∀ p ∈ upds, p.1 ≠ k) :
    updDict ((k, v0) :: d) upds = (k, v0) :: updDict d upds := by
  induction upds generalizing d with
  | nil => rfl
  | cons p ps ih =>
    show List.foldl (fun d p => setKey d p.1 p.2) (setKey ((k, v0) :: d) p.1 p.2) ps
      = (k, v0) :: List.foldl (fun d p => setKey d p.1 p.2) (setKey d p.1 p.2) ps
    rw [setKey_cons_ne _ _ _ _ _ (fun he => (h p (List.mem_cons_self _ _)) he.symm)]
    exact ih (setKey d p.1 p.2) (fun q hq => h q (List.mem_cons_of_mem _ hq))

theorem validPair_eq (p : String × Option PyNum) :
    validPair p = p.2.map (fun x => (p.1, x)) := by
  obtain ⟨k, o⟩ := p
  cases o <;> rfl

theorem updDict_cons (d : ArgDict) (p : String × PyNum) (ps : List (String × PyNum)) :
    updDict d (p :: ps) = updDict (setKey d p.1 p.2) ps := rfl

theorem updValid_eq_applyRef (pf : String → Option PyNum) (d : ArgDict)
    (vals : List String) (hnd : (d.map Prod.fst).Nodup) :
    updDict d (((validateAll pf (d.map Prod.fst) vals).1).filterMap validPair)
      = applyRef pf d vals := by
  induction d generalizing vals with
  | nil =>
    rw [List.map_nil]
    cases vals <;> rfl
  | cons kv rest ih =>
    obtain ⟨k, v0⟩ := kv
    simp only [List.map_cons, List.nodup_cons] at hnd
    obtain ⟨hk, hrest⟩ := hnd
    cases vals with
    | nil => rfl
    | cons v vs =>
      have hkeys : ∀ p ∈ ((validateAll pf (rest.map Prod.fst) vs).1).filterMap
          validPair, p.1 ≠ k := by
        intro p hp
        rw [List.mem_filterMap] at hp
        obtain ⟨a, ha, hfa⟩ := hp
        rw [validPair_eq] at hfa
        cases hax : a.2 with
        | none => rw [hax] at hfa; cases hfa
        | some x =>
          rw [hax] at hfa
          cases hfa
          intro he
          exact hk (he ▸ validateAll_keys pf _ vs a ha)
      simp only [List.map_cons, validateAll_cons]
      cases ho : (validate pf k v).1.2 with
      | none =>
        have hf : validPair (validate pf k v).1 = none := by
          rw [validPair_eq, ho]
          rfl
        rw [List.filterMap_cons_none hf]
        rw [updDict_cons_notin _ _ _ _ hkeys, ih vs hrest]
        have hvo : valueOf pf k v v0 = v0 := by
          unfold valueOf
          rw [ho]
        simp [applyRef, hvo]
      | some x =>
        have hf : validPair (validate pf k v).1 = some (k, x) := by
          rw [validPair_eq, ho, validate_fst]
          rfl
        rw [List.filterMap_cons_some hf, updDict_cons]
        rw [show setKey ((k, v0) :: rest) ((k : String), (x : PyNum)).1 ((k, x) : String × PyNum).2
            = setKey ((k, v0) :: rest) k x from rfl]
        rw [setKey_head _ _ _ _ (by
          intro kv' hkv' he
          exact hk (he ▸ List.mem_map_of_mem Prod.fst hkv'))]
        rw [updDict_cons_notin rest k x _ hkeys, ih vs hrest]
        have hvo : valueOf pf k v v0 = x := by
          unfold valueOf
          rw [ho]
        simp [applyRef, hvo]

theorem applyRef_length (pf : String → Option PyNum) (d : ArgDict) (vals : List String) :
    (applyRef pf d vals).length = d.length := by
  induction d generalizing vals with
  | nil => cases vals <;> rfl
  | cons kv rest ih =>
    cases vals with
    | nil => rfl
    | cons v vs => simp only [applyRef, List.length_cons, ih]

theorem applyRef_get?_lt (pf : String → Option PyNum) (d : ArgDict)
    (vals : List String) (i : Nat) (hi : i < vals.length) :
    (applyRef pf d vals).get? i =
      (d.get? i).map (fun kv => (kv.1, valueOf pf kv.1 (vals.getD i "") kv.2)) := by
  induction d generalizing vals i with
  | nil =>
    cases vals with
    | nil => exact absurd hi (Nat.not_lt_zero i)
    | cons v vs => rfl
  | cons kv rest ih =>
    cases vals with
    | nil => exact absurd hi (Nat.not_lt_zero i)
    | cons v vs =>
      cases i with
      | zero => rfl
      | succ j =>
        simp only [applyRef, List.get?_cons_succ, List.getD_cons_succ]
        exact ih vs j (Nat.lt_of_succ_lt_succ hi)

theorem applyRef_get?_ge (pf : String → Option PyNum) (d : ArgDict)
    (vals : List String) (i : Nat) (hi : vals.length ≤ i) :
    (applyRef pf d vals).get? i = d.get? i := by
  induction d generalizing vals i with
  | nil => cases vals <;> rfl
  | cons kv rest ih =>
    cases vals with
    | nil => rfl
    | cons v vs =>
      cases i with
      | zero => exact absurd hi (Nat.not_succ_le_zero vs.length)
      | succ j =>
        simp only [applyRef, List.get?_cons_succ]
        exact ih vs j (Nat.le_of_succ_le_succ hi)

theorem argdict_map_fst : argdict.map Prod.fst = argname := by decide

theorem applyValid_fst (pf : String → Option PyNum) (vals : List String) :
    (applyValid pf argdict vals).1 = applyRef pf argdict vals := by
  show updDict argdict (((validateAll pf argname vals).1).filterMap validPair)
    = applyRef pf argdict vals
  rw [← argdict_map_fst]
  exact updValid_eq_applyRef pf argdict vals (by decide)

end PRESET

namespace PRESET

theorem getFromArg_fst (pf : String → Option PyNum) (d : ArgDict) (line : String)
    (h : line ≠ "") :
    (getFromArg pf d line).1
      = (applyValid pf d (((splitOnComma line).map pyStrip).take argname.length)).1 := by
  unfold getFromArg
  rw [if_neg h]

theorem getFromArg_snd (pf : String → Option PyNum) (d : ArgDict) (line : String)
    (h : line ≠ "") :
    (getFromArg pf d line).2
      = mkLog ("Parsing presets from \"" ++ line ++ "\"") .DEBUG
          :: (applyValid pf d (((splitOnComma line).map pyStrip).take argname.length)).2 := by
  unfold getFromArg
  rw [if_neg h]

theorem validate_snd_log (pf : String → Option PyNum) (k v : String)
    (hne : v ≠ "") (hpf : pf v = none) :
    (validate pf k v).2
      = [mkLog ("Preset " ++ k ++ " (" ++ v ++ ") is invalid - will use default") .ERR] := by
  unfold validate
  rw [if_neg hne, hpf]

theorem validateAll_log_mem (pf : String → Option PyNum) (names vals : List String)
    (i : Nat) (h1 : i < names.length) (h2 : i < vals.length) :
    ∀ e ∈ (validate pf (names.getD i "") (vals.getD i "")).2,
      e ∈ (validateAll pf names vals).2 := by
  induction names generalizing vals i with
  | nil => exact absurd h1 (Nat.not_lt_zero i)
  | cons k ks ih =>
    cases vals with
    | nil => exact absurd h2 (Nat.not_lt_zero i)
    | cons v vs =>
      cases i with
      | zero =>
        intro e he
        rw [validateAll_cons]
        exact List.mem_append_left _ he
      | succ j =>
        intro e he
        rw [validateAll_cons]
        refine List.mem_append_right _ ?_
        exact ih vs j (Nat.lt_of_succ_lt_succ h1) (Nat.lt_of_succ_lt_succ h2) e he

theorem applyValid_fst_of_keys (pf : String → Option PyNum) (d : ArgDict)
    (vals : List String) (hd : d.map Prod.fst = argname) :
    (applyValid pf d vals).1 = applyRef pf d vals := by
  show updDict d (((validateAll pf argname vals).1).filterMap validPair)
    = applyRef pf d vals
  rw [← hd]
  exact updValid_eq_applyRef pf d vals (by rw [hd]; decide)

end PRESET

open PRESET in
/-- C5: for an override string with at most six comma-separated fields,
the result of `getFromArg` on the default dict still has the six
canonical parameters; each position `i` below the field count carries the
field's validated value (prior value when missing/invalid), and every
position at or beyond the field count is untouched. -/
theorem override_first_n_candidates (pf : String → Option PyNum) (line : String)
    (hN : ((splitOnComma line).map pyStrip).length ≤ 6) :
    ((getFromArg pf argdict line).1.length = 6) ∧
    (∀ i, i < ((splitOnComma line).map pyStrip).length →
      (getFromArg pf argdict line).1.get? i
        = (argdict.get? i).map (fun kv =>
            (kv.1, valueOf pf kv.1 (((splitOnComma line).map pyStrip).getD i "") kv.2))) ∧
    (∀ i, ((splitOnComma line).map pyStrip).length ≤ i →
      (getFromArg pf argdict line).1.get? i = argdict.get? i) := by
  have hv0 : ∀ k dflt, valueOf pf k "" dflt = dflt :=
    fun k dflt => valueOf_unchanged pf k "" dflt (Or.inl rfl)
  by_cases hline : line = ""
  · subst hline
    have hres : (getFromArg pf argdict "").1 = argdict := rfl
    have hvals : ((splitOnComma ("" : String)).map pyStrip) = [""] := rfl
    rw [hres, hvals]
    refine ⟨rfl, ?_, ?_⟩
    · intro i hi
      have hi0 : i = 0 := Nat.lt_one_iff.mp hi
      subst hi0
      have h0 : argdict.get? 0 = some ("thresh", PyNum.pint (-75)) := rfl
      rw [h0]
      simp [hv0]
    · intro i _
      rfl
  · have hfst : (getFromArg pf argdict line).1
        = applyRef pf argdict ((splitOnComma line).map pyStrip) := by
      rw [getFromArg_fst pf argdict line hline,
        List.take_of_length_le (by exact hN), applyValid_fst]
    refine ⟨?_, ?_, ?_⟩
    · rw [hfst, applyRef_length]
      rfl
    · intro i hi
      rw [hfst, applyRef_get?_lt pf argdict _ i hi]
    · intro i hi
      rw [hfst, applyRef_get?_ge pf argdict _ i hi]

/-- Closed instance of `override_first_n_candidates` at the override
string `"-70,abc"`. -/
theorem override_first_n_candidates_witness :
    ((PRESET.getFromArg pyParseFloat PRESET.argdict "-70,abc").1.length = 6) ∧
    (∀ i, i < ((splitOnComma ("-70,abc" : String)).map pyStrip).length →
      (PRESET.getFromArg pyParseFloat PRESET.argdict "-70,abc").1.get? i
        = (PRESET.argdict.get? i).map (fun kv =>
            (kv.1, PRESET.valueOf pyParseFloat kv.1
              (((splitOnComma ("-70,abc" : String)).map pyStrip).getD i "") kv.2))) ∧
    (∀ i, ((splitOnComma ("-70,abc" : String)).map pyStrip).length ≤ i →
      (PRESET.getFromArg pyParseFloat PRESET.argdict "-70,abc").1.get? i
        = PRESET.argdict.get? i) :=
  override_first_n_candidates pyParseFloat "-70,abc" (by decide)

open PRESET in
/-- C6: a field that is empty or fails numeric parsing leaves the
corresponding parameter's prior value untouched in the positional
application pass shared by the override-string and preset-file paths, and
a non-empty unparsable field contributes a log message naming the
parameter and the raw value. -/
theorem invalid_field_keeps_prior (pf : String → Option PyNum) (d : ArgDict)
    (vals : List String) (i : Nat) (hd : d.map Prod.fst = argname)
    (hi : i < vals.length)
    (hv : vals.getD i "" = "" ∨ pf (vals.getD i "") = none) :
    ((applyValid pf d vals).1.get? i = d.get? i) ∧
    (i < 6 → vals.getD i "" ≠ "" → pf (vals.getD i "") = none →
      mkLog ("Preset " ++ argname.getD i "" ++ " (" ++ vals.getD i ""
        ++ ") is invalid - will use default") .ERR ∈ (applyValid pf d vals).2) := by
  constructor
  · rw [applyValid_fst_of_keys pf d vals hd, applyRef_get?_lt pf d vals i hi]
    have hkv : ∀ kv : String × PyNum,
        (kv.1, valueOf pf kv.1 (vals.getD i "") kv.2) = kv := by
      intro kv
      rw [valueOf_unchanged pf kv.1 _ kv.2 hv]
    cases d.get? i with
    | none => rfl
    | some kv => simp only [Option.map_some', hkv]
  · intro hi6 hne hpf
    have hlog := validate_snd_log pf (argname.getD i "") (vals.getD i "") hne hpf
    refine validateAll_log_mem pf argname vals i (by exact hi6) hi _ ?_
    rw [hlog]
    exact List.mem_singleton_self _

/-- Closed instance of `invalid_field_keeps_prior` at the field list
`["", "abc"]` (an empty field and an unparsable one). -/
theorem invalid_field_keeps_prior_witness :
    ((PRESET.applyValid pyParseFloat PRESET.argdict ["", "abc"]).1.get? 1
      = PRESET.argdict.get? 1) ∧
    (1 < 6 → (["", "abc"].getD 1 "" : String) ≠ "" → pyParseFloat (["", "abc"].getD 1 "") = none →
      mkLog ("Preset " ++ PRESET.argname.getD 1 "" ++ " (" ++ ["", "abc"].getD 1 ""
        ++ ") is invalid - will use default") .ERR
        ∈ (PRESET.applyValid pyParseFloat PRESET.argdict ["", "abc"]).2) :=
  invalid_field_keeps_prior pyParseFloat PRESET.argdict ["", "abc"] 1 (by decide)
    (by decide) (by right; decide)

open PRESET in
/-- C8 counterexample: resolving the override string
`"-75,0.16,6,120,120,0.48"` from the built-in defaults does NOT leave the
exposed stringified form equal to the defaults' one — `float()` turns the
integer-typed defaults into floats, so `getValues` gains `.0` suffixes. -/
theorem override_defaults_getValues_ne :
    getValues (getFromArg pyParseFloat argdict "-75,0.16,6,120,120,0.48").1
        = ["-75.0", "0.16", "6.0", "120.0", "120.0", "0.48"] ∧
    getValues argdict = ["-75", "0.16", "6", "120", "120", "0.48"] ∧
    getValues (getFromArg pyParseFloat argdict "-75,0.16,6,120,120,0.48").1
        ≠ getValues argdict := by
  refine ⟨by decide, by decide, by decide⟩

open PRESET in
/-- C8 amended: resolving the override string
`"-75,0.16,6,120,120,0.48"` with no preset file yields a store with the
same keys as the defaults and numerically equal values (Python `==`
equality, under which the resulting dict equals the default one), but its
exposed stringified form is `["-75.0", "0.16", "6.0", "120.0", "120.0",
"0.48"]`, which differs from the defaults' exposed form at every
integer-typed default. -/
theorem override_defaults_numeq :
    ((getFromArg pyParseFloat argdict "-75,0.16,6,120,120,0.48").1.map Prod.fst
        = argdict.map Prod.fst) ∧
    (((getFromArg pyParseFloat argdict "-75,0.16,6,120,120,0.48").1.zip argdict).all
        (fun p => p.1.2.numEq p.2.2) = true) ∧
    ((getFromArg pyParseFloat argdict "-75,0.16,6,120,120,0.48").1.length
        = argdict.length) ∧
    getValues (getFromArg pyParseFloat argdict "-75,0.16,6,120,120,0.48").1
        = ["-75.0", "0.16", "6.0", "120.0", "120.0", "0.48"] := by
  refine ⟨by decide, by decide, by decide, by decide⟩

namespace PRESET

/-- A raw preset-file line the scanner ignores: blank after stripping, or
its first non-whitespace character is `#`. -/
def lineSkipped (l : String) : Prop :=
  pyStrip l = "" ∨ startsWithHash (pyStrip l) = true

instance (l : String) : Decidable (lineSkipped l) := by
  unfold lineSkipped
  infer_instance

/-- A scanned (non-skipped) line whose pattern compiles and matches
neither the title nor the callsign. -/
def lineUnmatched (mc : String → Option (String → Bool)) (t c l : String) : Prop :=
  ¬ lineSkipped l ∧
    ∃ m, mc ((scannedFields l).headD "") = some m ∧ m t = false ∧ m c = false

/-- A line the scanning loop passes over without applying or stopping:
skipped, or compiled-but-unmatched. -/
def passedOver (mc : String → Option (String → Bool)) (t c l : String) : Prop :=
  lineSkipped l ∨ lineUnmatched mc t c l

theorem scanLines_cons (pf : String → Option PyNum)
    (mc : String → Option (String → Bool)) (t c : String) (d : ArgDict)
    (raw : String) (rest : List String) :
    scanLines pf mc t c d (raw :: rest)
      = if pyStrip raw = "" then scanLines pf mc t c d rest
        else if startsWithHash (pyStrip raw) = true then scanLines pf mc t c d rest
        else
          match mc ((scannedFields raw).headD "") with
          | none => .error ()
          | some m =>
            if m t || m c then
              .ok ((applyValid pf d (((scannedFields raw).drop 1).take argname.length)).1,
                usingLog (pyStrip raw)
                  :: (applyValid pf d (((scannedFields raw).drop 1).take argname.length)).2)
            else scanLines pf mc t c d rest := rfl

theorem startsWithHash_ne_empty (s : String) (h : startsWithHash s = true) : s ≠ "" := by
  intro he
  rw [he] at h
  cases h

theorem scanLines_passedOver (pf : String → Option PyNum)
    (mc : String → Option (String → Bool)) (t c : String) (d : ArgDict)
    (x : String) (ls : List String) (h : passedOver mc t c x) :
    scanLines pf mc t c d (x :: ls) = scanLines pf mc t c d ls := by
  rcases h with h | h
  · rcases h with h | h
    · rw [scanLines_cons, if_pos h]
    · rw [scanLines_cons, if_neg (startsWithHash_ne_empty _ h), if_pos h]
  · obtain ⟨hns, m, hm, ht, hc⟩ := h
    rw [scanLines_cons, if_neg (fun he => hns (Or.inl he)),
      if_neg (fun he => hns (Or.inr he))]
    simp only [hm, ht, hc, Bool.or_self]
    rw [if_neg Bool.false_ne_true]

theorem scanLines_skippedAll (pf : String → Option PyNum)
    (mc : String → Option (String → Bool)) (t c : String) (d : ArgDict)
    (ls : List String) (h : ∀ x ∈ ls, passedOver mc t c x) :
    scanLines pf mc t c d ls = .ok (d, [noPresetLog t c]) := by
  induction ls with
  | nil => rfl
  | cons x rest ih =>
    rw [scanLines_passedOver pf mc t c d x rest (h x (List.mem_cons_self _ _))]
    exact ih (fun y hy => h y (List.mem_cons_of_mem _ hy))

theorem scanLines_match (pf : String → Option PyNum)
    (mc : String → Option (String → Bool)) (t c : String) (d : ArgDict)
    (l : String) (post : List String) (m : String → Bool)
    (hl : ¬ lineSkipped l)
    (hm : mc ((scannedFields l).headD "") = some m)
    (hmatch : m t = true ∨ m c = true) :
    scanLines pf mc t c d (l :: post)
      = .ok ((applyValid pf d (((scannedFields l).drop 1).take argname.length)).1,
          usingLog (pyStrip l)
            :: (applyValid pf d (((scannedFields l).drop 1).take argname.length)).2) := by
  rw [scanLines_cons, if_neg (fun he => hl (Or.inl he)),
    if_neg (fun he => hl (Or.inr he))]
  have hb : (m t || m c) = true := by
    rcases hmatch with h | h <;> simp [h]
  simp only [hm, hb]
  rw [if_pos trivial]

theorem scanLines_badPattern (pf : String → Option PyNum)
    (mc : String → Option (String → Bool)) (t c : String) (d : ArgDict)
    (l : String) (post : List String)
    (hl : ¬ lineSkipped l)
    (hm : mc ((scannedFields l).headD "") = none) :
    scanLines pf mc t c d (l :: post) = .error () := by
  rw [scanLines_cons, if_neg (fun he => hl (Or.inl he)),
    if_neg (fun he => hl (Or.inr he))]
  simp only [hm]

theorem getFromFile_some (pf : String → Option PyNum)
    (mc : String → Option (String → Bool)) (fname : String) (d : ArgDict)
    (ls : List String) (t c : String) :
    getFromFile pf mc fname d (some ls) t c
      = match scanLines pf mc t c d ls with
        | .error e => .error e
        | .ok r => .ok (r.1, fileDbgLog fname :: r.2) := rfl

theorem scanLines_append_passedOver (pf : String → Option PyNum)
    (mc : String → Option (String → Bool)) (t c : String) (d : ArgDict)
    (pre rest : List String) :
    (∀ x ∈ pre, passedOver mc t c x) →
      scanLines pf mc t c d (pre ++ rest) = scanLines pf mc t c d rest := by
  induction pre with
  | nil => intro _; rfl
  | cons x xs ih =>
    intro hpre
    rw [List.cons_append,
      scanLines_passedOver pf mc t c d x _ (hpre x (List.mem_cons_self _ _))]
    exact ih (fun y hy => hpre y (List.mem_cons_of_mem _ hy))

end PRESET

open PRESET in
/-- C2: preset-file scanning skips blank and `#` lines and passes over
compiled-but-unmatched lines; the first non-skipped line whose compiled
pattern matches the title or the callsign has its remaining fields
applied positionally through the same validation pass as the override
string, and scanning stops there — the result does not depend on any
later line.  If every line is skipped or unmatched all parameters keep
their built-in defaults and a "no preset found" message is logged. -/
theorem presetfile_first_match_wins (pf : String → Option PyNum)
    (mc : String → Option (String → Bool)) (t c fname : String)
    (pre post : List String) (l : String) (m : String → Bool)
    (hpre : ∀ x ∈ pre, passedOver mc t c x)
    (hl : ¬ lineSkipped l)
    (hm : mc ((scannedFields l).headD "") = some m)
    (hmatch : m t = true ∨ m c = true) :
    (getFromFile pf mc fname argdict (some (pre ++ l :: post)) t c
      = getFromFile pf mc fname argdict (some (pre ++ [l])) t c) ∧
    (getFromFile pf mc fname argdict (some (pre ++ l :: post)) t c
      = .ok ((applyValid pf argdict (((scannedFields l).drop 1).take 6)).1,
          fileDbgLog fname :: usingLog (pyStrip l)
            :: (applyValid pf argdict (((scannedFields l).drop 1).take 6)).2)) ∧
    (∀ lines, (∀ x ∈ lines, passedOver mc t c x) →
      getFromFile pf mc fname argdict (some lines) t c
        = .ok (argdict, [fileDbgLog fname, noPresetLog t c])) := by
  have hm1 := scanLines_match pf mc t c argdict l post m hl hm hmatch
  have hm2 := scanLines_match pf mc t c argdict l [] m hl hm hmatch
  refine ⟨?_, ?_, ?_⟩
  · rw [getFromFile_some, getFromFile_some,
      scanLines_append_passedOver pf mc t c argdict pre (l :: post) hpre,
      scanLines_append_passedOver pf mc t c argdict pre [l] hpre, hm1, hm2]
  · rw [getFromFile_some,
      scanLines_append_passedOver pf mc t c argdict pre (l :: post) hpre, hm1]
    rfl
  · intro lines hlines
    rw [getFromFile_some, scanLines_skippedAll pf mc t c argdict lines hlines]

open PRESET in
/-- C7: an unreadable preset file logs an error and leaves all six
built-in defaults in place without failing; a malformed pattern on the
first scanned line that the scanner reaches propagates as an error for
the whole call. -/
theorem presetfile_errors (pf : String → Option PyNum)
    (mc : String → Option (String → Bool)) (t c fname : String) :
    (getFromFile pf mc fname argdict none t c
      = .ok (argdict, [fileDbgLog fname, notFoundLog fname])) ∧
    (∀ pre post bad, (∀ x ∈ pre, passedOver mc t c x) → ¬ lineSkipped bad →
      mc ((scannedFields bad).headD "") = none →
      getFromFile pf mc fname argdict (some (pre ++ bad :: post)) t c
        = .error ()) := by
  refine ⟨rfl, ?_⟩
  intro pre post bad hpre hbad hmc
  rw [getFromFile_some,
    scanLines_append_passedOver pf mc t c argdict pre (bad :: post) hpre,
    scanLines_badPattern pf mc t c argdict bad post hbad hmc]


/-- A concrete matcher standing for `re.compile('^News', re.IGNORECASE)`:
truthy exactly on strings starting with `News`. -/
def newsMatcher (s : String) : Bool :=
  s.data.take 4 = ['N', 'e', 'w', 's']

/-- A concrete matcher that matches nothing. -/
def neverMatcher : String → Bool := fun _ => false

/-- A concrete regular-expression engine for the preset-file witnesses:
`^News` and `^Sport` compile, everything else is malformed. -/
def mcNews : String → Option (String → Bool) :=
  fun pat =>
    if pat = "^News" then some newsMatcher
    else if pat = "^Sport" then some neverMatcher
    else none

/-- A concrete engine where the pattern `(` is malformed and everything
else compiles to a matcher that matches nothing. -/
def mcBad : String → Option (String → Bool) :=
  fun pat => if pat = "(" then none else some neverMatcher

open PRESET in
/-- Closed instance of `presetfile_first_match_wins`: a comment line, a
blank line and a non-matching `^Sport` line precede the matching `^News`
line; a second `^News` line afterwards does not change the result. -/
theorem presetfile_first_match_wins_witness :
    (getFromFile pyParseFloat mcNews "presets" argdict
        (some (["# comment", "   ", "^Sport,-60,,,,,"]
          ++ "^News,-70,,,,," :: ["^News,-99,,,,,"])) "News at Ten" "ABC1"
      = getFromFile pyParseFloat mcNews "presets" argdict
          (some (["# comment", "   ", "^Sport,-60,,,,,"] ++ ["^News,-70,,,,,"]))
          "News at Ten" "ABC1") ∧
    (getFromFile pyParseFloat mcNews "presets" argdict
        (some (["# comment", "   ", "^Sport,-60,,,,,"]
          ++ "^News,-70,,,,," :: ["^News,-99,,,,,"])) "News at Ten" "ABC1"
      = .ok ((applyValid pyParseFloat argdict
              (((scannedFields "^News,-70,,,,,").drop 1).take 6)).1,
          fileDbgLog "presets" :: usingLog (pyStrip "^News,-70,,,,,")
            :: (applyValid pyParseFloat argdict
              (((scannedFields "^News,-70,,,,,").drop 1).take 6)).2)) ∧
    (∀ lines, (∀ x ∈ lines, passedOver mcNews "News at Ten" "ABC1" x) →
      getFromFile pyParseFloat mcNews "presets" argdict (some lines)
          "News at Ten" "ABC1"
        = .ok (argdict, [fileDbgLog "presets", noPresetLog "News at Ten" "ABC1"])) :=
  presetfile_first_match_wins pyParseFloat mcNews "News at Ten" "ABC1" "presets"
    ["# comment", "   ", "^Sport,-60,,,,,"] ["^News,-99,,,,,"] "^News,-70,,,,," newsMatcher
    (by
      intro x hx
      rcases List.mem_cons.mp hx with rfl | hx
      · exact Or.inl (by decide)
      rcases List.mem_cons.mp hx with rfl | hx
      · exact Or.inl (by decide)
      rcases List.mem_cons.mp hx with rfl | hx
      · exact Or.inr ⟨by decide, neverMatcher, rfl, rfl, rfl⟩
      · cases hx)
    (by decide)
    rfl
    (Or.inl (by decide))

open PRESET in
/-- Closed instance of `presetfile_errors`: an unreadable file keeps the
defaults, and the line `(,-70,,,,,` whose pattern `(` is malformed makes
the call fail. -/
theorem presetfile_errors_witness :
    (getFromFile pyParseFloat mcBad "p" argdict none "T" "C"
      = .ok (argdict, [fileDbgLog "p", notFoundLog "p"])) ∧
    (getFromFile pyParseFloat mcBad "p" argdict
        (some (["# x"] ++ "(,-70,,,,," :: [])) "T" "C" = .error ()) :=
  ⟨(presetfile_errors pyParseFloat mcBad "T" "C" "p").1,
   (presetfile_errors pyParseFloat mcBad "T" "C" "p").2 ["# x"] [] "(,-70,,,,,"
     (by
       intro x hx
       rcases List.mem_cons.mp hx with rfl | hx
       · exact Or.inl (by decide)
       · cases hx)
     (by decide)
     rfl⟩

theorem takeWhile_until_at (l r : List Char) (h : '@' ∉ l) :
    (l ++ '@' :: r).takeWhile (fun ch => ch ≠ '@') = l := by
  induction l with
  | nil => simp [List.takeWhile_cons]
  | cons c cs ih =>
    have hc : c ≠ '@' := by
      intro he
      exact h (by rw [he]; exact List.mem_cons_self _ _)
    have hcs : '@' ∉ cs := fun hm => h (List.mem_cons_of_mem _ hm)
    simp only [List.cons_append, List.takeWhile_cons]
    simp only [hc, decide_not, decide_eq_false_iff_not, ne_eq, not_false_eq_true,
      Bool.not_false, if_true]
    simpa using ih hcs

theorem dropWhile_until_at (l r : List Char) (h : '@' ∉ l) :
    (l ++ '@' :: r).dropWhile (fun ch => ch ≠ '@') = '@' :: r := by
  induction l with
  | nil => simp [List.dropWhile_cons]
  | cons c cs ih =>
    have hc : c ≠ '@' := by
      intro he
      exact h (by rw [he]; exact List.mem_cons_self _ _)
    have hcs : '@' ∉ cs := fun hm => h (List.mem_cons_of_mem _ hm)
    simp only [List.cons_append, List.dropWhile_cons]
    simp only [hc, decide_not, decide_eq_false_iff_not, ne_eq, not_false_eq_true,
      Bool.not_false, if_true]
    simpa using ih hcs

theorem splitAt1_eq (s : String) :
    splitAt1 s
      = match s.data.dropWhile (fun ch => ch ≠ '@') with
        | [] => none
        | _ :: post =>
          some (String.mk (s.data.takeWhile (fun ch => ch ≠ '@')), String.mk post) := rfl

theorem splitAt1_data (s : String) (l r : List Char)
    (hs : s.data = l ++ '@' :: r) (h : '@' ∉ l) :
    splitAt1 s = some (String.mk l, String.mk r) := by
  rw [splitAt1_eq, hs, dropWhile_until_at l r h]
  show some (String.mk ((l ++ '@' :: r).takeWhile (fun ch => ch ≠ '@')), String.mk r)
    = some (String.mk l, String.mk r)
  rw [takeWhile_until_at l r h]

theorem splitAt1_tagged (flag info : String) (h : '@' ∉ flag.data) :
    splitAt1 (flag ++ "@" ++ info) = some (flag, info) := by
  have hs : (flag ++ "@" ++ info).data = flag.data ++ '@' :: info.data := by
    rw [String.data_append, String.data_append, List.append_assoc]
    rfl
  exact splitAt1_data (flag ++ "@" ++ info) flag.data info.data hs h

theorem splitAt1_noAt (s : String) (h : '@' ∉ s.data) : splitAt1 s = none := by
  have hd : s.data.dropWhile (fun ch => ch ≠ '@') = [] := by
    rw [List.dropWhile_eq_nil_iff]
    intro x hx
    simp only [ne_eq, decide_not, Bool.not_eq_true', decide_eq_false_iff_not]
    intro he
    exact h (he ▸ hx)
  rw [splitAt1_eq, hd]

theorem processLine_split (be : String → String) (progId : String) (st : LoopState)
    (line flag info : String) (hsplit : splitAt1 line = some (flag, info)) :
    processLine be progId st line = processTag be progId st flag info := by
  unfold processLine
  rw [hsplit]

theorem processTag_cut (be : String → String) (progId : String) (st : LoopState)
    (info n0 n1 : String) (r : List String) (h : digitRuns info = n0 :: n1 :: r) :
    processTag be progId st "cut" info = some (cutState be progId st info n0 n1) := by
  unfold processTag
  rw [h]
  rfl

theorem processTag_cut_short (be : String → String) (progId : String) (st : LoopState)
    (info : String) (h : (digitRuns info).length < 2) :
    processTag be progId st "cut" info = none := by
  unfold processTag
  cases hd : digitRuns info with
  | nil => rfl
  | cons a t =>
    cases t with
    | nil => rfl
    | cons b t' =>
      rw [hd] at h
      exact absurd h (by simp)

theorem processTag_other (be : String → String) (progId : String) (st : LoopState)
    (flag info : String) (h2 : flag ≠ "cut") (h3 : levelTags.lookup flag = none) :
    processTag be progId st flag info
      = some { st with logs := st.logs ++ [mkLog flag .WARNING] } := by
  unfold processTag
  rw [if_neg h2, h3]

theorem processLine_cut (be : String → String) (progId : String) (st : LoopState)
    (line info n0 n1 : String) (r : List String)
    (hsplit : splitAt1 line = some ("cut", info))
    (hd : digitRuns info = n0 :: n1 :: r) :
    processLine be progId st line = some (cutState be progId st info n0 n1) := by
  rw [processLine_split be progId st line "cut" info hsplit,
    processTag_cut be progId st info n0 n1 r hd]

theorem runLoop_cons (be : String → String) (progId : String) (st : LoopState)
    (l : String) (ls : List String) :
    runLoop be progId st (l :: ls)
      = match processLine be progId st l with
        | none => none
        | some st' => runLoop be progId st' ls := rfl

theorem runLoop_some (be : String → String) (progId : String) (st st1 : LoopState)
    (l : String) (ls : List String) (h : processLine be progId st l = some st1) :
    runLoop be progId st (l :: ls) = runLoop be progId st1 ls := by
  rw [runLoop_cons, h]

theorem cutState_markup (be : String → String) (progId : String) (st : LoopState)
    (info n0 n1 : String) :
    (cutState be progId st info n0 n1).markup
      = st.markup ++ [(strToNat n0, strToNat n1)] := by
  simp only [cutState]
  split <;> rfl

theorem cutState_breaks (be : String → String) (progId : String) (st : LoopState)
    (info n0 n1 : String) :
    (cutState be progId st info n0 n1).breaks = st.breaks + 1 := by
  simp only [cutState]
  split <;> rfl

theorem cutState_sent (be : String → String) (progId : String) (st : LoopState)
    (info n0 n1 : String) :
    (cutState be progId st info n0 n1).sent
      = st.sent ++ ["MESSAGE[]:[]"
          ++ mkMesg progId (st.markup ++ [(strToNat n0, strToNat n1)])] := by
  simp only [cutState]
  split <;> rfl

theorem cutState_logs (be : String → String) (progId : String) (st : LoopState)
    (info n0 n1 : String) :
    (cutState be progId st info n0 n1).logs
      = st.logs ++ [mkLog info .INFO]
        ++ (if be ("MESSAGE[]:[]" ++ mkMesg progId (st.markup ++ [(strToNat n0, strToNat n1)])) ≠ "OK"
            then [mkLog (failLogMsg
                (be ("MESSAGE[]:[]" ++ mkMesg progId (st.markup ++ [(strToNat n0, strToNat n1)])))
                (mkMesg progId (st.markup ++ [(strToNat n0, strToNat n1)]))) .ERR]
            else []) := by
  simp only [cutState]
  split
  · rfl
  · simp

theorem exists_two_of_le (l : List String) (h : 2 ≤ l.length) :
    ∃ a b t, l = a :: b :: t := by
  cases l with
  | nil => exact absurd h (by simp)
  | cons a t =>
    cases t with
    | nil => exact absurd h (by simp)
    | cons b t' => exact ⟨a, b, t', rfl⟩

theorem runLoop_cuts (be : String → String) (progId : String) (payloads : List String) :
    ∀ st : LoopState, (∀ p ∈ payloads, 2 ≤ (digitRuns p).length) →
      ∃ st', runLoop be progId st (payloads.map (fun p => "cut@" ++ p)) = some st' ∧
        st'.markup = st.markup ++ payloads.map (fun p =>
          (strToNat ((digitRuns p).headD ""), strToNat ((digitRuns p).getD 1 ""))) ∧
        st'.breaks = st.breaks + payloads.length := by
  induction payloads with
  | nil => exact fun st _ => ⟨st, rfl, by simp, by simp⟩
  | cons p ps ih =>
    intro st h
    obtain ⟨n0, n1, r, hd⟩ :=
      exists_two_of_le (digitRuns p) (h p (List.mem_cons_self _ _))
    obtain ⟨st', hrun, hmark, hbr⟩ :=
      ih (cutState be progId st p n0 n1) (fun q hq => h q (List.mem_cons_of_mem _ hq))
    have hsplit : splitAt1 ("cut@" ++ p) = some ("cut", p) :=
      splitAt1_tagged "cut" p (by decide)
    refine ⟨st', ?_, ?_, ?_⟩
    · rw [List.map_cons,
        runLoop_some be progId st (cutState be progId st p n0 n1) _ _
          (processLine_cut be progId st ("cut@" ++ p) p n0 n1 r hsplit hd)]
      exact hrun
    · rw [hmark, cutState_markup, List.map_cons, hd]
      simp [List.append_assoc]
    · rw [hbr, cutState_breaks, List.length_cons]
      omega

/-- C1 counterexample: the line `cut@found 5 4` (payload with two digit
runs) appends the mark `(5, 4)`, whose start is NOT below its end — the
code never checks `start < end`. -/
theorem cut_lines_counterexample :
    (runLoop beOK "pid" initState ["cut@found 5 4"]).map LoopState.markup
        = some [(5, 4)] ∧
    ¬ ((5 : Nat) < 4) :=
  ⟨by decide, by decide⟩

/-- C1 amended: a stream of `cut@<payload>` lines, each payload holding
at least two digit runs, appends — unconditionally — exactly one mark
per line, in input order, the mark being the first two digit runs of its
payload; the marks additionally satisfy `start < end` only under the
extra premise that every payload's first digit run is numerically below
its second (the code never checks or enforces `start < end`). -/
theorem cut_lines_append_marks (be : String → String) (progId : String)
    (payloads : List String)
    (h2 : ∀ p ∈ payloads, 2 ≤ (digitRuns p).length) :
    ∃ st, runLoop be progId initState (payloads.map (fun p => "cut@" ++ p)) = some st ∧
      st.markup = payloads.map (fun p =>
        (strToNat ((digitRuns p).headD ""), strToNat ((digitRuns p).getD 1 ""))) ∧
      st.markup.length = payloads.length ∧
      st.breaks = payloads.length ∧
      ((∀ p ∈ payloads,
          strToNat ((digitRuns p).headD "") < strToNat ((digitRuns p).getD 1 "")) →
        ∀ q ∈ st.markup, q.1 < q.2) := by
  obtain ⟨st, hrun, hmark, hbr⟩ := runLoop_cuts be progId payloads initState h2
  have hmark' : st.markup = payloads.map (fun p =>
      (strToNat ((digitRuns p).headD ""), strToNat ((digitRuns p).getD 1 ""))) := by
    rw [hmark]
    rfl
  refine ⟨st, hrun, hmark', ?_, by rw [hbr]; exact Nat.zero_add _, ?_⟩
  · rw [hmark', List.length_map]
  · intro hlt
    rw [hmark']
    intro q hq
    obtain ⟨p, hp, hqe⟩ := List.mem_map.mp hq
    rw [← hqe]
    exact hlt p hp

/-- Closed instance of `cut_lines_append_marks` at the two payloads
`found 100 250` and `found 5 4` — the second ill-ordered, so the
unconditional append/order/count part is exercised on a stream the code
accepts without any `start < end` check. -/
theorem cut_lines_append_marks_witness :
    ∃ st, runLoop beOK "pid" initState
        (["found 100 250", "found 5 4"].map (fun p => "cut@" ++ p)) = some st ∧
      st.markup = ["found 100 250", "found 5 4"].map (fun p =>
        (strToNat ((digitRuns p).headD ""), strToNat ((digitRuns p).getD 1 ""))) ∧
      st.markup.length = ["found 100 250", "found 5 4"].length ∧
      st.breaks = ["found 100 250", "found 5 4"].length ∧
      ((∀ p ∈ ["found 100 250", "found 5 4"],
          strToNat ((digitRuns p).headD "") < strToNat ((digitRuns p).getD 1 "")) →
        ∀ q ∈ st.markup, q.1 < q.2) :=
  cut_lines_append_marks beOK "pid" ["found 100 250", "found 5 4"] (by decide)

/-- C3 counterexample: the line `hello` (no `'@'`) makes the iteration
fail — the 2-tuple unpacking of `split('@', 1)` raises `ValueError`,
which nothing catches; the line is NOT handled as an unexpected tag and
the session does not continue. -/
theorem no_at_counterexample :
    (processLine beOK "pid" initState "hello").isSome = false := by decide

/-- C3 amended: every line read in the running state that contains no
`'@'` aborts the iteration (and with it the read loop): the split result
cannot be unpacked into `(tag, payload)` and the `ValueError` propagates;
the unexpected-tag arm is never reached. -/
theorem no_at_line_aborts (be : String → String) (progId : String)
    (st : LoopState) (line : String) (h : '@' ∉ line.data) :
    processLine be progId st line = none := by
  unfold processLine
  rw [splitAt1_noAt line h]

/-- Closed instance of `no_at_line_aborts` at the line `hello`. -/
theorem no_at_line_aborts_witness :
    processLine beOK "pid" initState "hello" = none :=
  no_at_line_aborts beOK "pid" initState "hello" (by decide)

/-- C9: a line whose tag is neither `cut` nor a recognized severity is
processed without failing, leaves the markup, the break counter and the
sent messages untouched, and adds exactly one warning log carrying the
literal tag text. -/
theorem unknown_tag_warns (be : String → String) (progId : String)
    (st : LoopState) (flag info : String)
    (h1 : '@' ∉ flag.data) (h2 : flag ≠ "cut")
    (h3 : levelTags.lookup flag = none) :
    processLine be progId st (flag ++ "@" ++ info)
      = some { st with logs := st.logs ++ [mkLog flag .WARNING] } := by
  rw [processLine_split be progId st _ flag info (splitAt1_tagged flag info h1),
    processTag_other be progId st flag info h2 h3]

/-- Closed instance of `unknown_tag_warns` at the line `bogus@hello`. -/
theorem unknown_tag_warns_witness :
    processLine beOK "pid" initState ("bogus" ++ "@" ++ "hello")
      = some { initState with
          logs := initState.logs ++ [mkLog "bogus" .WARNING] } :=
  unknown_tag_warns beOK "pid" initState "bogus" "hello"
    (by decide) (by decide) (by decide)

/-- C10: with a `cut` payload holding at least two digit runs the
extraction of the first two runs is in bounds and the iteration
succeeds; a payload with fewer than two digit runs is exactly the case
where the out-of-bounds access is reached (the iteration fails). -/
theorem cut_extraction_bounds (be : String → String) (progId : String)
    (st : LoopState) (info : String) :
    (2 ≤ (digitRuns info).length →
      (processLine be progId st ("cut@" ++ info)).isSome = true) ∧
    ((digitRuns info).length < 2 →
      processLine be progId st ("cut@" ++ info) = none) := by
  have hsplit : splitAt1 ("cut@" ++ info) = some ("cut", info) :=
    splitAt1_tagged "cut" info (by decide)
  constructor
  · intro h2
    obtain ⟨n0, n1, r, hd⟩ := exists_two_of_le (digitRuns info) h2
    rw [processLine_split be progId st _ "cut" info hsplit,
      processTag_cut be progId st info n0 n1 r hd]
    rfl
  · intro hlt
    rw [processLine_split be progId st _ "cut" info hsplit,
      processTag_cut_short be progId st info hlt]

/-- Closed instance of `cut_extraction_bounds`: payload `found 1 2` (two
runs) succeeds, payload `found 7` (one run) fails. -/
theorem cut_extraction_bounds_witness :
    (processLine beOK "pid" initState ("cut@" ++ "found 1 2")).isSome = true ∧
    processLine beOK "pid" initState ("cut@" ++ "found 7") = none :=
  ⟨(cut_extraction_bounds beOK "pid" initState "found 1 2").1 (by decide),
   (cut_extraction_bounds beOK "pid" initState "found 7").2 (by decide)⟩

/-- C4: every `cut` event sends exactly one backend command serializing
the ENTIRE current skip list (in order) as
`COMMFLAG_UPDATE <progId> <s1>:<STARTCODE>,<e1>:<ENDCODE>,...`, and a
response other than the exact token `OK` merely logs an error containing
the response and the message — the iteration still returns a normal
state.  In the concrete three-cut scenario the three sent commands grow
the pair list cumulatively and the final one lists the three pairs in
order with the configured codes. -/
theorem cut_notification (be : String → String) (progId : String) (st : LoopState)
    (info n0 n1 : String) (r : List String) (h : digitRuns info = n0 :: n1 :: r) :
    (∃ st', processLine be progId st ("cut@" ++ info) = some st' ∧
      st'.markup = st.markup ++ [(strToNat n0, strToNat n1)] ∧
      st'.sent = st.sent ++ ["MESSAGE[]:[]"
        ++ mkMesg progId (st.markup ++ [(strToNat n0, strToNat n1)])] ∧
      (be ("MESSAGE[]:[]" ++ mkMesg progId (st.markup ++ [(strToNat n0, strToNat n1)])) ≠ "OK" →
        mkLog (failLogMsg
            (be ("MESSAGE[]:[]" ++ mkMesg progId (st.markup ++ [(strToNat n0, strToNat n1)])))
            (mkMesg progId (st.markup ++ [(strToNat n0, strToNat n1)]))) .ERR
          ∈ st'.logs)) ∧
    (∀ be' : String → String, ∀ pid : String,
      (runLoop be' pid initState
          ["cut@found 100 250", "cut@found 400 500", "cut@found 900 950"]).map
            LoopState.sent
        = some ["MESSAGE[]:[]" ++ mkMesg pid [(100, 250)],
            "MESSAGE[]:[]" ++ mkMesg pid [(100, 250), (400, 500)],
            "MESSAGE[]:[]" ++ mkMesg pid [(100, 250), (400, 500), (900, 950)]] ∧
      mkMesg pid [(100, 250), (400, 500), (900, 950)]
        = "COMMFLAG_UPDATE " ++ pid ++ " "
            ++ "100:4,250:5,400:4,500:5,900:4,950:5") := by
  constructor
  · have hsplit : splitAt1 ("cut@" ++ info) = some ("cut", info) :=
      splitAt1_tagged "cut" info (by decide)
    refine ⟨cutState be progId st info n0 n1,
      processLine_cut be progId st _ info n0 n1 r hsplit h,
      cutState_markup be progId st info n0 n1,
      cutState_sent be progId st info n0 n1, ?_⟩
    intro hne
    rw [cutState_logs, if_pos hne]
    simp
  · intro be' pid
    have s1 : processLine be' pid initState "cut@found 100 250"
        = some (cutState be' pid initState "found 100 250" "100" "250") :=
      processLine_cut be' pid initState _ "found 100 250" "100" "250" []
        (splitAt1_tagged "cut" "found 100 250" (by decide)) (by decide)
    have h1m : (cutState be' pid initState "found 100 250" "100" "250").markup
        = [(100, 250)] := by
      rw [cutState_markup]
      rfl
    have h1s : (cutState be' pid initState "found 100 250" "100" "250").sent
        = ["MESSAGE[]:[]" ++ mkMesg pid [(100, 250)]] := by
      rw [cutState_sent]
      rfl
    have s2 : processLine be' pid (cutState be' pid initState "found 100 250" "100" "250")
        "cut@found 400 500"
        = some (cutState be' pid (cutState be' pid initState "found 100 250" "100" "250")
            "found 400 500" "400" "500") :=
      processLine_cut be' pid _ _ "found 400 500" "400" "500" []
        (splitAt1_tagged "cut" "found 400 500" (by decide)) (by decide)
    have h2m : (cutState be' pid (cutState be' pid initState "found 100 250" "100" "250")
        "found 400 500" "400" "500").markup = [(100, 250), (400, 500)] := by
      rw [cutState_markup, h1m]
      rfl
    have h2s : (cutState be' pid (cutState be' pid initState "found 100 250" "100" "250")
        "found 400 500" "400" "500").sent
        = ["MESSAGE[]:[]" ++ mkMesg pid [(100, 250)],
           "MESSAGE[]:[]" ++ mkMesg pid [(100, 250), (400, 500)]] := by
      rw [cutState_sent, h1s, h1m]
      rfl
    have s3 : processLine be' pid
        (cutState be' pid (cutState be' pid initState "found 100 250" "100" "250")
          "found 400 500" "400" "500") "cut@found 900 950"
        = some (cutState be' pid
            (cutState be' pid (cutState be' pid initState "found 100 250" "100" "250")
              "found 400 500" "400" "500") "found 900 950" "900" "950") :=
      processLine_cut be' pid _ _ "found 900 950" "900" "950" []
        (splitAt1_tagged "cut" "found 900 950" (by decide)) (by decide)
    have h3s : (cutState be' pid
        (cutState be' pid (cutState be' pid initState "found 100 250" "100" "250")
          "found 400 500" "400" "500") "found 900 950" "900" "950").sent
        = ["MESSAGE[]:[]" ++ mkMesg pid [(100, 250)],
           "MESSAGE[]:[]" ++ mkMesg pid [(100, 250), (400, 500)],
           "MESSAGE[]:[]" ++ mkMesg pid [(100, 250), (400, 500), (900, 950)]] := by
      rw [cutState_sent, h2s, h2m]
      rfl
    constructor
    · rw [runLoop_some be' pid _ _ _ _ s1, runLoop_some be' pid _ _ _ _ s2,
        runLoop_some be' pid _ _ _ _ s3]
      show some _ = _
      rw [h3s]
    · rfl

/-- Closed instance of `cut_notification` with an always-failing backend,
payload `found 100 250` from the empty initial state. -/
theorem cut_notification_witness :
    (∃ st', processLine beFail "pid" initState ("cut@" ++ "found 100 250") = some st' ∧
      st'.markup = initState.markup ++ [(strToNat "100", strToNat "250")] ∧
      st'.sent = initState.sent ++ ["MESSAGE[]:[]"
        ++ mkMesg "pid" (initState.markup ++ [(strToNat "100", strToNat "250")])] ∧
      (beFail ("MESSAGE[]:[]"
          ++ mkMesg "pid" (initState.markup ++ [(strToNat "100", strToNat "250")])) ≠ "OK" →
        mkLog (failLogMsg
            (beFail ("MESSAGE[]:[]"
              ++ mkMesg "pid" (initState.markup ++ [(strToNat "100", strToNat "250")])))
            (mkMesg "pid" (initState.markup ++ [(strToNat "100", strToNat "250")]))) .ERR
          ∈ st'.logs)) ∧
    (∀ be' : String → String, ∀ pid : String,
      (runLoop be' pid initState
          ["cut@found 100 250", "cut@found 400 500", "cut@found 900 950"]).map
            LoopState.sent
        = some ["MESSAGE[]:[]" ++ mkMesg pid [(100, 250)],
            "MESSAGE[]:[]" ++ mkMesg pid [(100, 250), (400, 500)],
            "MESSAGE[]:[]" ++ mkMesg pid [(100, 250), (400, 500), (900, 950)]] ∧
      mkMesg pid [(100, 250), (400, 500), (900, 950)]
        = "COMMFLAG_UPDATE " ++ pid ++ " "
            ++ "100:4,250:5,400:4,500:5,900:4,950:5") :=
  cut_notification beFail "pid" initState "found 100 250" "100" "250" [] (by decide)
